import Mathlib

/-!
Verification of the proxy-scraper repository's validation engine
(`proxyChecker.py`) and scrape aggregator (`proxyScraper.py`) against its
specification.  The Python source is shallowly embedded: pure string
manipulation becomes Lean functions on `List Char`, the network transport and
the wall clock become explicit oracle parameters, and Python exceptions become
`Except PyErr`.
-/

namespace ProxyTools

/-- Python exception kinds relevant to the two scripts: `NotImplementedError`
from `Proxy.__init__`, `ValueError` from tuple unpacking / `int()` /
`scrape`'s unsupported-method check, and the transport-level errors a probe
can raise inside `urllib.request.urlopen`. -/
inductive PyErr where
  | notImplementedError
  | valueError
  | timeout
  | connectionRefused
  | protocolError
  | dnsFailure
  | otherError
deriving DecidableEq, Repr

/-- An HTTP response as seen at the `urlopen` boundary; the checker code never
inspects it beyond the fact that it was returned. -/
structure Response where
  status : Nat
deriving DecidableEq, Repr

/-- `class Proxy` (proxyChecker.py lines 20-25): the stored lower-cased method
and the raw `host:port` string. -/
structure Proxy where
  method : String
  proxy : String
deriving DecidableEq, Repr

/-- The triple returned by `Proxy.check` (proxyChecker.py lines 50 and 53):
`(valid, time_taken, error)`. -/
structure ProbeOutcome where
  success : Bool
  timeTaken : ℚ
  failureReason : Option PyErr
deriving DecidableEq, Repr

/-- Python `\d` restricted to ASCII (candidate strings are ASCII). -/
def isAsciiDigit (c : Char) : Bool := '0' ≤ c && c ≤ '9'

/-- The whitespace Python `str.strip()` and `int()` remove. -/
def isPyWhitespace (c : Char) : Bool :=
  decide (c ∈ ([' ', '\t', '\n', '\r', '\x0b', '\x0c'] : List Char))

/-- Python `str.strip()` on a character list. -/
def pyStripChars (cs : List Char) : List Char :=
  ((cs.dropWhile isPyWhitespace).reverse.dropWhile isPyWhitespace).reverse

/-- Python `line.strip()` (proxyChecker.py line 65). -/
def pyStrip (s : String) : String := String.mk (pyStripChars s.data)

/-- Python `str.lower()` (ASCII). -/
def pyLower (s : String) : String := String.mk (s.data.map Char.toLower)

/-- Split off the maximal leading run of ASCII digits. -/
def chompDigits : List Char → List Char × List Char
  | [] => ([], [])
  | c :: cs =>
    if isAsciiDigit c then
      let p := chompDigits cs
      (c :: p.1, p.2)
    else ([], c :: cs)

/-- One `\d{1,3}` group of the candidate regex: consume 1-3 digits, return the
rest, or fail. -/
def group1to3 (cs : List Char) : Option (List Char) :=
  if 1 ≤ (chompDigits cs).1.length && (chompDigits cs).1.length ≤ 3 then
    some (chompDigits cs).2
  else none

/-- `\d{1,5}` (the port) of the candidate regex. -/
def consumePort (cs : List Char) : Option (List Char) :=
  if 1 ≤ (chompDigits cs).1.length && (chompDigits cs).1.length ≤ 5 then
    some (chompDigits cs).2
  else none

/-- Consume one literal character. -/
def expectChar (c : Char) : List Char → Option (List Char)
  | [] => none
  | x :: xs => if x = c then some xs else none

/-- `(?:\.\d{1,3}){n}` of the candidate regex. -/
def dotGroups : Nat → List Char → Option (List Char)
  | 0, cs => some cs
  | n + 1, cs =>
    (expectChar '.' cs).bind fun r1 =>
    (group1to3 r1).bind fun r2 =>
    dotGroups n r2

/-- The body `\d{1,3}(?:\.\d{1,3}){3}:\d{1,5}` of the regex at
proxyChecker.py line 28, as a consumer returning the unmatched suffix. -/
def consumeAddr (cs : List Char) : Option (List Char) :=
  (group1to3 cs).bind fun r1 =>
  (dotGroups 3 r1).bind fun r2 =>
  (expectChar ':' r2).bind fun r3 =>
  consumePort r3

/-- `Proxy.is_valid` (proxyChecker.py lines 27-28):
`re.match(r"^\d{1,3}(?:\.\d{1,3}){3}:\d{1,5}$", proxy) is not None`.
Python's `$` matches at the end of the string or just before one newline at
the end of the string, so a single trailing `'\n'` is also accepted. -/
def is_valid (s : String) : Bool :=
  match consumeAddr s.data with
  | some r => r == [] || r == ['\n']
  | none => false

/-- The spec's reading of the same pattern: four dot-separated 1-3 digit
groups, `':'`, 1-5 digits, and nothing before or after. -/
def specExactMatch (s : String) : Bool :=
  match consumeAddr s.data with
  | some r => r == []
  | none => false

example : is_valid "1.2.3.4:80" = true := by decide
example : is_valid "999.999.999.999:99999" = true := by decide
example : is_valid "1.2.3:80" = false := by decide
example : is_valid "1.2.3.4" = false := by decide
example : is_valid "1.2.3.4:80\n" = true := by decide
example : specExactMatch "1.2.3.4:80\n" = false := by decide
example : is_valid "1.2.3.4:123456" = false := by decide
example : is_valid "1234.2.3.4:80" = false := by decide

/-- Python `s.split(sep)` for a one-character separator: `"".split(':')`
is `[""]`, and every separator occurrence opens a new piece. -/
def pySplitChar (sep : Char) : List Char → List (List Char)
  | [] => [[]]
  | c :: cs =>
    if c = sep then [] :: pySplitChar sep cs
    else
      match pySplitChar sep cs with
      | [] => [[c]]
      | g :: gs => (c :: g) :: gs

/-- Decimal value of a digit list. -/
def digitsToNat (ds : List Char) : Nat :=
  ds.foldl (fun n c => 10 * n + (c.toNat - '0'.toNat)) 0

/-- The digits part of Python `int()`: non-empty, all ASCII digits
(underscore grouping is not modelled — no input here contains one). -/
def pyIntDigits (ds : List Char) (neg : Bool) : Except PyErr Int :=
  if ds.isEmpty then .error .valueError
  else if ds.all isAsciiDigit then
    .ok (if neg then -(digitsToNat ds : Int) else (digitsToNat ds : Int))
  else .error .valueError

/-- Python `int(s)` after stripping: optional sign, then digits. -/
def pyIntCore (cs : List Char) : Except PyErr Int :=
  match cs with
  | [] => .error .valueError
  | c :: rest =>
    if c = '-' then pyIntDigits rest true
    else if c = '+' then pyIntDigits rest false
    else pyIntDigits (c :: rest) false

/-- Python `int(s)` on a string (proxyChecker.py line 33): raises
`ValueError` unless the stripped string is an optionally signed digit run. -/
def pyInt (s : String) : Except PyErr Int := pyIntCore (pyStripChars s.data)

/-- The membership test of `Proxy.__init__` (proxyChecker.py line 22):
`method.lower() in ["http", "https", "socks4", "socks5"]`. -/
def methodOK (m : String) : Bool :=
  pyLower m = "http" || pyLower m = "https" ||
    pyLower m = "socks4" || pyLower m = "socks5"

/-- `Proxy.__init__` (proxyChecker.py lines 21-25): raises
`NotImplementedError` on an unsupported method, else stores the lower-cased
method and the proxy string. -/
def mkProxy (method proxy : String) : Except PyErr Proxy :=
  if methodOK method then .ok ⟨pyLower method, proxy⟩
  else .error .notImplementedError

/-- The list comprehension at proxyChecker.py line 65:
`[Proxy(method, line.strip()) for line in f]`; the first constructor
exception propagates. -/
def buildProxies (method : String) : List String → Except PyErr (List Proxy)
  | [] => .ok []
  | line :: rest =>
    match mkProxy method (pyStrip line) with
    | .error e => .error e
    | .ok p =>
      match buildProxies method rest with
      | .error e => .error e
      | .ok ps => .ok (p :: ps)

/-- The `try` block of `Proxy.check` (proxyChecker.py lines 36-53): the
request through the transport oracle, timed by the clock readings `t0`
(before) and `t1` (after).  Any transport exception is caught and converted
into a failed outcome with `time_taken = 0`. -/
def runRequest (p : Proxy) (transport : Proxy → Except PyErr Response)
    (t0 t1 : ℚ) : Except PyErr ProbeOutcome :=
  match transport p with
  | .ok _ => .ok ⟨true, t1 - t0, none⟩
  | .error e => .ok ⟨false, 0, some e⟩

/-- `Proxy.check` (proxyChecker.py lines 30-53).  Lines 31-34 run before the
`try`: the `proxy_host, proxy_port = self.proxy.split(':')` unpacking raises
`ValueError` unless the split has exactly two parts, and in SOCKS mode
`int(proxy_port)` is evaluated for `socks.set_default_proxy`.  Exceptions
from those lines are not caught. -/
def checkWithPort (p : Proxy) (portChars : List Char)
    (transport : Proxy → Except PyErr Response) (t0 t1 : ℚ) :
    Except PyErr ProbeOutcome :=
  if p.method = "socks4" || p.method = "socks5" then
    match pyInt (String.mk portChars) with
    | .error e => .error e
    | .ok _ => runRequest p transport t0 t1
  else runRequest p transport t0 t1

def check (p : Proxy) (transport : Proxy → Except PyErr Response)
    (t0 t1 : ℚ) : Except PyErr ProbeOutcome :=
  match pySplitChar ':' p.proxy.data with
  | [_hostChars, portChars] => checkWithPort p portChars transport t0 t1
  | _ => .error .valueError

/-- Whether the probe thread for `p` appends it to `valid_proxies`
(proxyChecker.py lines 71-76): the first component of `check`'s result when
`check` returns, `false` when the thread dies on an uncaught exception. -/
def probeSuccess (transport : Proxy → Except PyErr Response)
    (clock : Proxy → ℚ × ℚ) (p : Proxy) : Bool :=
  match check p transport (clock p).1 (clock p).2 with
  | .ok o => o.success
  | .error _ => false

/-- The filter at proxyChecker.py line 68:
`list(filter(lambda x: x.is_valid(), proxies))`. -/
def validCandidates (proxies : List Proxy) : List Proxy :=
  proxies.filter fun p => is_valid p.proxy

/-- One `(proxy, outcome)` pair per dispatched probe thread whose `check`
call returned (proxyChecker.py lines 71-88); a thread killed by an uncaught
exception contributes nothing. -/
def dispatchOutcomes (transport : Proxy → Except PyErr Response)
    (clock : Proxy → ℚ × ℚ) (ps : List Proxy) : List (Proxy × ProbeOutcome) :=
  ps.filterMap fun p =>
    match check p transport (clock p).1 (clock p).2 with
    | .ok o => some (p, o)
    | .error _ => none

/-- The contents of `valid_proxies` as written to the output file
(proxyChecker.py lines 75-76 and 90-92): the proxies whose outcome has
`valid = True`. -/
def survivingSet (outs : List (Proxy × ProbeOutcome)) : List String :=
  (outs.filter fun po => po.2.success).map fun po => po.1.proxy

/-- `check_proxies` (proxyChecker.py lines 62-94): build one `Proxy` per
stripped line, drop the syntactically invalid ones, probe every remaining
candidate, and return (= write to the file) the surviving ones. -/
def checkProxies (method : String) (fileLines : List String)
    (transport : Proxy → Except PyErr Response)
    (clock : Proxy → ℚ × ℚ) : Except PyErr (List String) :=
  match buildProxies method fileLines with
  | .error e => .error e
  | .ok proxies =>
    .ok (survivingSet (dispatchOutcomes transport clock (validCandidates proxies)))

/-- One source adapter of proxyScraper.py (lines 90-103): only its method
tag and an identifying name matter to the aggregate contract. -/
structure ScraperCfg where
  name : String
  method : String
deriving DecidableEq, Repr

/-- The `scrapers` list (proxyScraper.py lines 90-103). -/
def scrapers : List ScraperCfg :=
  [⟨"SpysMe", "http"⟩,
   ⟨"SpysMe", "socks"⟩,
   ⟨"ProxyScrape", "http"⟩,
   ⟨"ProxyScrape", "socks4"⟩,
   ⟨"ProxyScrape", "socks5"⟩,
   ⟨"GeoNode", "socks"⟩,
   ⟨"ProxyListDownload-elite", "https"⟩,
   ⟨"ProxyListDownload-elite", "http"⟩,
   ⟨"ProxyListDownload-transparent", "http"⟩,
   ⟨"ProxyListDownload-anonymous", "http"⟩,
   ⟨"GeneralTable", "https"⟩,
   ⟨"GeneralTable", "http"⟩]

/-- `asyncio.gather(*tasks)` at proxyScraper.py line 129, without
`return_exceptions=True`: one failed task makes the whole gather raise; all
results are returned only when every task succeeds. -/
def gatherResults : List (Except PyErr (List String)) →
    Except PyErr (List (List String))
  | [] => .ok []
  | .error e :: _ => .error e
  | .ok r :: rest =>
    match gatherResults rest with
    | .error e => .error e
    | .ok rs => .ok (r :: rs)

/-- The method expansion at proxyScraper.py lines 113-115. -/
def expandMethods (method : String) : List String :=
  if method = "socks" then ["socks", "socks4", "socks5"] else [method]

/-- The adapters selected at proxyScraper.py line 117. -/
def selectScrapers (method : String) : List ScraperCfg :=
  scrapers.filter fun s => decide (s.method ∈ expandMethods method)

/-- `scrape` (proxyScraper.py lines 111-137) with each adapter's
fetch-and-extract step abstracted by the oracle `fetch`.  Returns the
aggregate result together with the list of adapters whose fetch was issued:
with no matching adapter, `ValueError` is raised before any fetch. -/
def scrapeModel (method : String)
    (fetch : ScraperCfg → Except PyErr (List String)) :
    Except PyErr (List String) × List ScraperCfg :=
  let sel := selectScrapers method
  if sel.isEmpty then (.error .valueError, [])
  else
    match gatherResults (sel.map fetch) with
    | .error e => (.error e, sel)
    | .ok rs => (.ok rs.flatten, sel)

/-- One step of a SOCKS probe as scheduled by the thread interleaving:
probe `i` first runs `socks.set_default_proxy(..., host, port)`
(proxyChecker.py line 33), later opens its connection inside `urlopen`
(line 46) through whatever the process-global default proxy then is. -/
inductive ProbeStep where
  | setTarget (i : Nat)
  | connect (i : Nat)
deriving DecidableEq, Repr

/-- Execute an interleaving of SOCKS probe steps over the process-global
default-proxy register: `setTarget i` stores candidate `i`'s address,
`connect i` records which address probe `i`'s connection actually used. -/
def runSocksSchedule (cands : List String) :
    List ProbeStep → Option String → List (Nat × Option String)
  | [], _ => []
  | ProbeStep.setTarget i :: rest, _ => runSocksSchedule cands rest cands[i]?
  | ProbeStep.connect i :: rest, g => (i, g) :: runSocksSchedule cands rest g

/-- A valid interleaving of `n` two-step probes: each probe sets its target
exactly once, connects exactly once, and sets before it connects — exactly
the orderings the per-probe program order of proxyChecker.py lines 32-46
allows. -/
def isInterleaving (n : Nat) (sched : List ProbeStep) : Bool :=
  sched.length = 2 * n &&
    (List.range n).all fun i =>
      sched.count (ProbeStep.setTarget i) = 1 &&
      sched.count (ProbeStep.connect i) = 1 &&
      sched.indexOf (ProbeStep.setTarget i) < sched.indexOf (ProbeStep.connect i)

/-- `random.choice(pool)` under an explicit draw `r` from the RNG. -/
def randomChoice (pool : List String) (r : Nat) : String :=
  pool.getD (r % pool.length) ""

/-- proxyChecker.py line 80: the user agent chosen at dispatch time —
`random.choice(user_agents) if random_user_agent else
random.choice(user_agents)`; both branches draw from the pool. -/
def dispatchUA (pool : List String) (randomUA : Bool) (r : Nat) : String :=
  if randomUA then randomChoice pool r else randomChoice pool r

/-- proxyChecker.py lines 71-74: inside the probe thread the dispatched
agent is replaced by a fresh draw when random mode is on. -/
def probeUA (pool : List String) (randomUA : Bool) (dispatched : String)
    (r2 : Nat) : String :=
  if randomUA then randomChoice pool r2 else dispatched

/-- The user agent a probe is actually invoked with, as a function of the
two RNG draws (dispatch-time `r1`, in-thread `r2`). -/
def usedAgent (pool : List String) (randomUA : Bool) (r1 r2 : Nat) : String :=
  probeUA pool randomUA (dispatchUA pool randomUA r1) r2

/-- Mocked deterministic transport of the spec's test scenario: candidate A
succeeds, B is refused, C times out. -/
def mockTransport (p : Proxy) : Except PyErr Response :=
  if p.proxy = "1.1.1.1:80" then .ok ⟨200⟩
  else if p.proxy = "2.2.2.2:80" then .error .connectionRefused
  else .error .timeout

/-- A fixed clock: every probe starts at 0 and returns at 1. -/
def mockClock (_ : Proxy) : ℚ × ℚ := (0, 1)

example :
    checkProxies "http" ["1.1.1.1:80", "2.2.2.2:80", "3.3.3.3:80"]
      mockTransport mockClock = .ok ["1.1.1.1:80"] := by rfl

example : check ⟨"socks5", "1.2.3.4:1080"⟩ mockTransport 0 1 =
    .ok ⟨false, 0, some .timeout⟩ := by rfl

example :
    runSocksSchedule ["1.1.1.1:1080", "2.2.2.2:1080"]
      [.setTarget 0, .setTarget 1, .connect 0, .connect 1] none =
    [(0, some "2.2.2.2:1080"), (1, some "2.2.2.2:1080")] := by decide

example :
    isInterleaving 2 [.setTarget 0, .setTarget 1, .connect 0, .connect 1]
      = true := by decide

example :
    (scrapeModel "http" fun c =>
      if c.name = "SpysMe" then .ok ["1.1.1.1:80"] else .error .timeout).1
    = .error .timeout := by rfl

/-! ### Lemmas about the regex consumers -/

/-- A character list that is empty or does not start with a digit: the shapes
of suffix a digit-run consumer can leave behind or safely absorb. -/
def HeadND : List Char → Prop
  | [] => True
  | c :: _ => isAsciiDigit c = false

lemma headND_append {a b : List Char} (ha : HeadND a) (hb : HeadND b) :
    HeadND (a ++ b) := by
  cases a with
  | nil => simpa using hb
  | cons c t => simpa [HeadND] using ha

lemma headND_cons {c : Char} {t : List Char} (h : isAsciiDigit c = false) :
    HeadND (c :: t) := h

lemma chompDigits_spec (cs : List Char) :
    (chompDigits cs).1 ++ (chompDigits cs).2 = cs ∧
    (∀ c ∈ (chompDigits cs).1, isAsciiDigit c = true) ∧
    HeadND (chompDigits cs).2 := by
  induction cs with
  | nil => simp [chompDigits, HeadND]
  | cons c cs ih =>
    by_cases h : isAsciiDigit c = true
    · simpa [chompDigits, h] using ⟨ih.1, ih.2.1, ih.2.2⟩
    · simp only [Bool.not_eq_true] at h
      simp [chompDigits, h, HeadND]

lemma chompDigits_exact {ds t : List Char}
    (hd : ∀ c ∈ ds, isAsciiDigit c = true) (ht : HeadND t) :
    chompDigits (ds ++ t) = (ds, t) := by
  induction ds with
  | nil =>
    cases t with
    | nil => rfl
    | cons c t' => simp [chompDigits, HeadND] at ht ⊢; simp [ht]
  | cons d ds ih =>
    have hd0 : isAsciiDigit d = true := hd d (by simp)
    have := ih fun c hc => hd c (by simp [hc])
    simp [chompDigits, hd0, this]

lemma group1to3_split {cs r : List Char} (h : group1to3 cs = some r) :
    ∃ pre, cs = pre ++ r ∧ pre ≠ [] ∧ (∀ c ∈ pre, isAsciiDigit c = true) ∧
      ∀ t, HeadND t → group1to3 (pre ++ t) = some t := by
  unfold group1to3 at h
  obtain ⟨heq, hall, hnd⟩ := chompDigits_spec cs
  split at h
  · rename_i hlen
    obtain rfl : (chompDigits cs).2 = r := by injection h
    refine ⟨(chompDigits cs).1, heq.symm, ?_, hall, fun t ht => ?_⟩
    · intro hnil
      rw [hnil] at hlen
      simp at hlen
    · unfold group1to3
      rw [chompDigits_exact hall ht]
      simp only [hlen, if_true]
  · cases h

lemma consumePort_split {cs r : List Char} (h : consumePort cs = some r) :
    ∃ pre, cs = pre ++ r ∧ pre ≠ [] ∧ (∀ c ∈ pre, isAsciiDigit c = true) ∧
      ∀ t, HeadND t → consumePort (pre ++ t) = some t := by
  unfold consumePort at h
  obtain ⟨heq, hall, hnd⟩ := chompDigits_spec cs
  split at h
  · rename_i hlen
    obtain rfl : (chompDigits cs).2 = r := by injection h
    refine ⟨(chompDigits cs).1, heq.symm, ?_, hall, fun t ht => ?_⟩
    · intro hnil
      rw [hnil] at hlen
      simp at hlen
    · unfold consumePort
      rw [chompDigits_exact hall ht]
      simp only [hlen, if_true]
  · cases h

lemma expectChar_split {ch : Char} {cs r : List Char}
    (h : expectChar ch cs = some r) : cs = ch :: r := by
  cases cs with
  | nil => simp [expectChar] at h
  | cons x xs =>
    simp only [expectChar] at h
    by_cases hx : x = ch
    · rw [if_pos hx] at h
      obtain rfl : xs = r := by injection h
      rw [hx]
    · rw [if_neg hx] at h
      cases h

lemma expectChar_cons_self (ch : Char) (xs : List Char) :
    expectChar ch (ch :: xs) = some xs := by
  simp [expectChar]

lemma dotGroups_split {n : Nat} {cs r : List Char}
    (h : dotGroups n cs = some r) :
    ∃ pre, cs = pre ++ r ∧ HeadND pre ∧
      (∀ c ∈ pre, c = '.' ∨ isAsciiDigit c = true) ∧
      ∀ t, HeadND t → dotGroups n (pre ++ t) = some t := by
  induction n generalizing cs r with
  | zero =>
    obtain rfl : cs = r := by injection h
    exact ⟨[], by simp, by simp [HeadND], by simp, fun t _ => by simp [dotGroups]⟩
  | succ n ih =>
    unfold dotGroups at h
    rw [Option.bind_eq_some] at h
    obtain ⟨r1, h1, h⟩ := h
    rw [Option.bind_eq_some] at h
    obtain ⟨r2, h2, h3⟩ := h
    obtain rfl := expectChar_split h1
    obtain ⟨g, rfl, hgne, hgall, hgext⟩ := group1to3_split h2
    obtain ⟨p, rfl, hpnd, hpall, hpext⟩ := ih h3
    refine ⟨'.' :: (g ++ p), by simp, by simp [HeadND, isAsciiDigit], ?_, ?_⟩
    · intro c hc
      rcases List.mem_cons.mp hc with rfl | hc
      · exact Or.inl rfl
      rcases List.mem_append.mp hc with hc | hc
      · exact Or.inr (hgall c hc)
      · exact hpall c hc
    · intro t ht
      unfold dotGroups
      rw [show ('.' :: (g ++ p)) ++ t = '.' :: (g ++ (p ++ t)) by simp,
        expectChar_cons_self]
      simp only [Option.bind_eq_bind, Option.some_bind]
      rw [hgext (p ++ t) (headND_append hpnd ht)]
      simp only [Option.some_bind]
      exact hpext t ht

/-- Structure of a string the candidate regex body matches: a colon-free
head of digit groups, the colon, then a non-empty digit run, then the
unmatched suffix; and the match is stable under replacing the suffix by any
other non-digit-headed suffix. -/
lemma consumeAddr_split {cs r : List Char} (h : consumeAddr cs = some r) :
    ∃ A dp, cs = A ++ ':' :: (dp ++ r) ∧
      (∀ c ∈ A, c = '.' ∨ isAsciiDigit c = true) ∧
      dp ≠ [] ∧ (∀ c ∈ dp, isAsciiDigit c = true) ∧
      ∀ t, HeadND t → consumeAddr (A ++ ':' :: (dp ++ t)) = some t := by
  unfold consumeAddr at h
  rw [Option.bind_eq_some] at h
  obtain ⟨r1, h1, h⟩ := h
  rw [Option.bind_eq_some] at h
  obtain ⟨r2, h2, h⟩ := h
  rw [Option.bind_eq_some] at h
  obtain ⟨r3, h3, h4⟩ := h
  obtain ⟨g0, rfl, hg0ne, hg0all, hg0ext⟩ := group1to3_split h1
  obtain ⟨p1, rfl, hp1nd, hp1all, hp1ext⟩ := dotGroups_split h2
  obtain rfl := expectChar_split h3
  obtain ⟨dp, rfl, hdpne, hdpall, hdpext⟩ := consumePort_split h4
  refine ⟨g0 ++ p1, dp, by simp, ?_, hdpne, hdpall, ?_⟩
  · intro c hc
    rcases List.mem_append.mp hc with hc | hc
    · exact Or.inr (hg0all c hc)
    · exact hp1all c hc
  · intro t ht
    have hcolon : HeadND (':' :: (dp ++ t)) := by
      simp [HeadND, isAsciiDigit]
    unfold consumeAddr
    rw [show (g0 ++ p1) ++ ':' :: (dp ++ t) = g0 ++ (p1 ++ ':' :: (dp ++ t))
      by simp]
    rw [hg0ext (p1 ++ ':' :: (dp ++ t)) (headND_append hp1nd hcolon)]
    simp only [Option.bind_eq_bind, Option.some_bind]
    rw [hp1ext (':' :: (dp ++ t)) hcolon]
    simp only [Option.some_bind]
    rw [expectChar_cons_self]
    simp only [Option.some_bind]
    exact hdpext t ht

/-! ### Bridging the accepted shape to `split(':')`, `strip()` and `int()` -/

lemma is_valid_elim {s : String} (h : is_valid s = true) :
    ∃ r, consumeAddr s.data = some r ∧ (r = [] ∨ r = ['\n']) := by
  cases hc : consumeAddr s.data with
  | none =>
    simp only [is_valid, hc] at h
    exact Bool.noConfusion h
  | some r =>
    simp only [is_valid, hc, Bool.or_eq_true, beq_iff_eq] at h
    exact ⟨r, rfl, h⟩

lemma digit_ne_colon {c : Char} (h : isAsciiDigit c = true) : c ≠ ':' := by
  rintro rfl
  simp [isAsciiDigit] at h

lemma digit_not_ws {c : Char} (h : isAsciiDigit c = true) :
    isPyWhitespace c = false := by
  by_contra hw
  simp only [Bool.not_eq_false, isPyWhitespace, decide_eq_true_eq] at hw
  fin_cases hw <;> simp [isAsciiDigit] at h

lemma pySplitChar_no_sep {sep : Char} {cs : List Char}
    (h : ∀ c ∈ cs, c ≠ sep) : pySplitChar sep cs = [cs] := by
  induction cs with
  | nil => rfl
  | cons c cs ih =>
    have hc : c ≠ sep := h c (by simp)
    have := ih fun x hx => h x (by simp [hx])
    simp [pySplitChar, hc, this]

lemma pySplitChar_sep_append {sep : Char} {as bs : List Char}
    (h : ∀ c ∈ as, c ≠ sep) :
    pySplitChar sep (as ++ sep :: bs) = as :: pySplitChar sep bs := by
  induction as with
  | nil => simp [pySplitChar]
  | cons a as ih =>
    have ha : a ≠ sep := h a (by simp)
    have hrest := ih fun x hx => h x (by simp [hx])
    simp only [List.cons_append, pySplitChar, if_neg ha, List.append_eq]
    rw [hrest]

lemma dropWhile_of_head_false {p : Char → Bool} {cs : List Char}
    (h : ∀ c t, cs = c :: t → p c = false) : cs.dropWhile p = cs := by
  cases cs with
  | nil => rfl
  | cons c t => simp [List.dropWhile_cons, h c t rfl]

/-- `strip()` of a digit run padded on the right by whitespace is the digit
run itself. -/
lemma pyStripChars_digits_pad {dp r : List Char} (hne : dp ≠ [])
    (hd : ∀ c ∈ dp, isAsciiDigit c = true)
    (hr : ∀ c ∈ r, isPyWhitespace c = true) :
    pyStripChars (dp ++ r) = dp := by
  unfold pyStripChars
  have h1 : (dp ++ r).dropWhile isPyWhitespace = dp ++ r := by
    apply dropWhile_of_head_false
    intro c t hct
    cases dp with
    | nil => exact absurd rfl hne
    | cons d ds =>
      simp only [List.cons_append, List.cons.injEq] at hct
      rw [← hct.1]
      exact digit_not_ws (hd d (by simp))
  rw [h1, List.reverse_append]
  have h2 : (r.reverse ++ dp.reverse).dropWhile isPyWhitespace = dp.reverse := by
    rw [List.dropWhile_append]
    have hrrev : r.reverse.dropWhile isPyWhitespace = [] :=
      List.dropWhile_eq_nil_iff.mpr fun x hx => hr x (List.mem_reverse.mp hx)
    rw [hrrev]
    simp only [List.isEmpty_nil, if_true]
    apply dropWhile_of_head_false
    intro c t hct
    have : c ∈ dp.reverse := by rw [hct]; simp
    exact digit_not_ws (hd c (List.mem_reverse.mp this))
  rw [h2, List.reverse_reverse]

lemma pyInt_digits_pad {dp r : List Char} (hne : dp ≠ [])
    (hd : ∀ c ∈ dp, isAsciiDigit c = true)
    (hr : ∀ c ∈ r, isPyWhitespace c = true) :
    pyInt (String.mk (dp ++ r)) = .ok (digitsToNat dp) := by
  unfold pyInt
  have : (String.mk (dp ++ r)).data = dp ++ r := rfl
  rw [this, pyStripChars_digits_pad hne hd hr]
  cases dp with
  | nil => exact absurd rfl hne
  | cons d ds =>
    have hd0 : isAsciiDigit d = true := hd d (by simp)
    have hminus : d ≠ '-' := by
      rintro rfl
      simp [isAsciiDigit] at hd0
    have hplus : d ≠ '+' := by
      rintro rfl
      simp [isAsciiDigit] at hd0
    simp only [pyIntCore]
    rw [if_neg hminus, if_neg hplus]
    have hall : (d :: ds).all isAsciiDigit = true := List.all_eq_true.mpr hd
    simp [pyIntDigits, hall]

/-- Under a syntactically valid candidate the pre-`try` lines of
`Proxy.check` (the `split(':')` unpacking and, in SOCKS mode, the
`int(proxy_port)` conversion) cannot raise, so `check` is the `try` block's
result. -/
lemma check_reduces {p : Proxy} (transport : Proxy → Except PyErr Response)
    (t0 t1 : ℚ) (h : is_valid p.proxy = true) :
    check p transport t0 t1 = runRequest p transport t0 t1 := by
  obtain ⟨r, hc, hr⟩ := is_valid_elim h
  obtain ⟨A, dp, hcs, hA, hdpne, hdp, _⟩ := consumeAddr_split hc
  have hrws : ∀ c ∈ r, isPyWhitespace c = true := by
    intro c hcr
    rcases hr with rfl | rfl
    · cases hcr
    · rcases List.mem_singleton.mp hcr with rfl
      rfl
  have hAcolon : ∀ c ∈ A, c ≠ ':' := by
    intro c hcA
    rcases hA c hcA with rfl | hdig
    · decide
    · exact digit_ne_colon hdig
  have hBcolon : ∀ c ∈ dp ++ r, c ≠ ':' := by
    intro c hcB
    rcases List.mem_append.mp hcB with hcB | hcB
    · exact digit_ne_colon (hdp c hcB)
    · rcases hr with rfl | rfl
      · cases hcB
      · rcases List.mem_singleton.mp hcB with rfl
        decide
  have hsplit : pySplitChar ':' p.proxy.data = [A, dp ++ r] := by
    rw [hcs, pySplitChar_sep_append hAcolon, pySplitChar_no_sep hBcolon]
  simp only [check, hsplit]
  simp only [checkWithPort]
  by_cases hm : (p.method = "socks4" || p.method = "socks5") = true
  · rw [if_pos hm, pyInt_digits_pad hdpne hdp hrws]
  · rw [if_neg hm]

/-! ### Lemmas about the validation engine -/

lemma runRequest_ok (p : Proxy) (transport : Proxy → Except PyErr Response)
    (t0 t1 : ℚ) : ∃ o, runRequest p transport t0 t1 = .ok o := by
  unfold runRequest
  cases transport p with
  | ok resp => exact ⟨_, rfl⟩
  | error e => exact ⟨_, rfl⟩

lemma check_ok_of_valid {p : Proxy} (transport : Proxy → Except PyErr Response)
    (t0 t1 : ℚ) (h : is_valid p.proxy = true) :
    ∃ o, check p transport t0 t1 = .ok o := by
  rw [check_reduces transport t0 t1 h]
  exact runRequest_ok p transport t0 t1

lemma buildProxies_ok {m : String} {lines : List String} {ps : List Proxy}
    (h : buildProxies m lines = .ok ps) :
    ps = lines.map fun l => ⟨pyLower m, pyStrip l⟩ := by
  induction lines generalizing ps with
  | nil =>
    obtain rfl : ([] : List Proxy) = ps := by injection h
    rfl
  | cons l ls ih =>
    unfold buildProxies at h
    by_cases hm : methodOK m = true
    · rw [show mkProxy m (pyStrip l) = .ok ⟨pyLower m, pyStrip l⟩ by
        simp [mkProxy, hm]] at h
      cases hb : buildProxies m ls with
      | error e => rw [hb] at h; cases h
      | ok ps' =>
        rw [hb] at h
        obtain rfl : (⟨pyLower m, pyStrip l⟩ : Proxy) :: ps' = ps := by
          injection h
        simp [ih hb]
    · rw [show mkProxy m (pyStrip l) = .error .notImplementedError by
        simp only [Bool.not_eq_true] at hm
        simp [mkProxy, hm]] at h
      cases h

lemma surviving_dispatch (transport : Proxy → Except PyErr Response)
    (clock : Proxy → ℚ × ℚ) (ps : List Proxy) :
    survivingSet (dispatchOutcomes transport clock ps) =
      (ps.filter (probeSuccess transport clock)).map (fun p => p.proxy) := by
  induction ps with
  | nil => rfl
  | cons p ps ih =>
    unfold dispatchOutcomes at ih ⊢
    rw [List.filterMap_cons, List.filter_cons]
    cases hchk : check p transport (clock p).1 (clock p).2 with
    | error e =>
      have hps : probeSuccess transport clock p = false := by
        simp [probeSuccess, hchk]
      simp only [hps, Bool.false_eq_true, if_false, ih]
    | ok o =>
      have hps : probeSuccess transport clock p = o.success := by
        simp [probeSuccess, hchk]
      unfold survivingSet at ih ⊢
      rw [List.filter_cons]
      cases hs : o.success with
      | true => simp only [hps, hs, if_true, List.map_cons, ih]
      | false => simp only [hps, hs, Bool.false_eq_true, if_false, ih]

/-- The shape of every successful `check_proxies` run: the returned (and
written) list is exactly the built candidates that pass `is_valid` and whose
probe succeeded. -/
lemma checkProxies_ok {m : String} {lines : List String}
    {transport : Proxy → Except PyErr Response} {clock : Proxy → ℚ × ℚ}
    {out : List String}
    (h : checkProxies m lines transport clock = .ok out) :
    out = (((lines.map fun l => (⟨pyLower m, pyStrip l⟩ : Proxy)).filter
        (fun p => is_valid p.proxy)).filter
          (probeSuccess transport clock)).map (fun p => p.proxy) := by
  unfold checkProxies at h
  cases hb : buildProxies m lines with
  | error e => rw [hb] at h; cases h
  | ok ps =>
    rw [hb] at h
    obtain rfl := (Except.ok.injEq _ _).mp h.symm
    rw [buildProxies_ok hb, surviving_dispatch]
    rfl

/-! ### Lemmas about the scrape aggregator -/

lemma gatherResults_error {l : List (Except PyErr (List String))}
    (h : ∃ x ∈ l, ∃ e, x = .error e) :
    ∃ e, gatherResults l = .error e := by
  induction l with
  | nil => simp at h
  | cons x xs ih =>
    cases x with
    | error e => exact ⟨e, rfl⟩
    | ok r =>
      obtain ⟨y, hy, e, he⟩ := h
      rcases List.mem_cons.mp hy with rfl | hy
      · cases he
      · obtain ⟨e', he'⟩ := ih ⟨y, hy, e, he⟩
        exact ⟨e', by simp [gatherResults, he']⟩

lemma gatherResults_ok {l : List (Except PyErr (List String))}
    (h : ∀ x ∈ l, ∃ r, x = .ok r) :
    ∃ rs, gatherResults l = .ok rs := by
  induction l with
  | nil => exact ⟨[], rfl⟩
  | cons x xs ih =>
    obtain ⟨r, rfl⟩ := h x (by simp)
    obtain ⟨rs, hrs⟩ := ih fun y hy => h y (by simp [hy])
    exact ⟨r :: rs, by simp [gatherResults, hrs]⟩

lemma scrapeModel_fetched (method : String)
    (fetch : ScraperCfg → Except PyErr (List String)) :
    (scrapeModel method fetch).2 =
      if (selectScrapers method).isEmpty then [] else selectScrapers method := by
  unfold scrapeModel
  by_cases hsel : (selectScrapers method).isEmpty = true
  · simp [hsel]
  · simp only [Bool.not_eq_true] at hsel
    simp only [hsel, Bool.false_eq_true, if_false]
    cases hg : gatherResults ((selectScrapers method).map fetch) <;> simp

/-- An unsupported scraping method selects no adapter. -/
lemma selectScrapers_empty {m : String}
    (h : m ∉ ["http", "https", "socks", "socks4", "socks5"]) :
    selectScrapers m = [] := by
  simp only [List.mem_cons, List.mem_singleton, not_or] at h
  obtain ⟨h1, h2, h3, h4, h5, -⟩ := h
  have hmok : expandMethods m = [m] := by
    unfold expandMethods
    rw [if_neg h3]
  unfold selectScrapers
  rw [hmok]
  simp only [scrapers, List.filter_cons, List.mem_singleton,
    decide_eq_true_eq]
  norm_num [List.filter, Ne.symm h1, Ne.symm h2, Ne.symm h3, Ne.symm h4,
    Ne.symm h5]

lemma buildProxies_of_methodOK {m : String} (hm : methodOK m = true)
    (lines : List String) :
    buildProxies m lines = .ok (lines.map fun l => ⟨pyLower m, pyStrip l⟩) := by
  induction lines with
  | nil => rfl
  | cons l ls ih => simp [buildProxies, mkProxy, hm, ih]

/-! ### The claims -/

/-- C2: for every candidate probe, if the HTTP exchange through the proxy
completes at all — with any status code, including 4xx/5xx — `check` returns
success=true with elapsed time equal to the wall-clock duration of the call
(the clock reading after minus the reading before); success=false with the
classifying exception as failure reason is returned exactly on a transport
exception. -/
theorem probe_success_iff_completion :
    ∀ (p : Proxy) (transport : Proxy → Except PyErr Response) (t0 t1 : ℚ),
      is_valid p.proxy = true →
      (∀ resp, transport p = .ok resp →
          check p transport t0 t1 = .ok ⟨true, t1 - t0, none⟩) ∧
      (∀ e, transport p = .error e →
          check p transport t0 t1 = .ok ⟨false, 0, some e⟩) := by
  intro p transport t0 t1 h
  rw [check_reduces transport t0 t1 h]
  constructor
  · intro resp hresp
    unfold runRequest
    rw [hresp]
  · intro e he
    unfold runRequest
    rw [he]

theorem probe_success_iff_completion_witness :
    check ⟨"http", "1.2.3.4:80"⟩ (fun _ => .ok ⟨403⟩) 1 3 =
      .ok ⟨true, (3 : ℚ) - 1, none⟩ :=
  (probe_success_iff_completion ⟨"http", "1.2.3.4:80"⟩ (fun _ => .ok ⟨403⟩)
    1 3 (by decide)).1 ⟨403⟩ rfl

/-- C3: the claim that a SOCKS probe for candidate X never connects through
candidate Y's host:port fails on the code: SOCKS routing is process-global
(`socks.set_default_proxy` + `socket.socket = socks.socksocket`), so under
the valid thread interleaving set₀, set₁, connect₀, connect₁ probe 0
connects through candidate 1's address. -/
theorem socks_probe_routing_race :
    isInterleaving 2
        [ProbeStep.setTarget 0, ProbeStep.setTarget 1,
         ProbeStep.connect 0, ProbeStep.connect 1] = true ∧
    runSocksSchedule ["1.1.1.1:1080", "2.2.2.2:1080"]
        [ProbeStep.setTarget 0, ProbeStep.setTarget 1,
         ProbeStep.connect 0, ProbeStep.connect 1] none =
      [(0, some "2.2.2.2:1080"), (1, some "2.2.2.2:1080")] ∧
    ("2.2.2.2:1080" : String) ≠ "1.1.1.1:1080" :=
  ⟨by decide, by rfl, by decide⟩

/-- C4: a validated candidate's probe never escapes as an exception — every
transport behaviour yields an outcome at the `check` boundary, every
dispatched probe over validated candidates contributes exactly one outcome,
and a run with a supported method always completes with a result list. -/
theorem probe_errors_contained :
    (∀ (p : Proxy) (transport : Proxy → Except PyErr Response) (t0 t1 : ℚ),
        is_valid p.proxy = true → ∃ o, check p transport t0 t1 = .ok o) ∧
    (∀ (transport : Proxy → Except PyErr Response) (clock : Proxy → ℚ × ℚ)
        (ps : List Proxy),
        (∀ p ∈ ps, is_valid p.proxy = true) →
        (dispatchOutcomes transport clock ps).length = ps.length) ∧
    (∀ (method : String) (lines : List String)
        (transport : Proxy → Except PyErr Response) (clock : Proxy → ℚ × ℚ),
        methodOK method = true →
        ∃ out, checkProxies method lines transport clock = .ok out) := by
  refine ⟨fun p tr t0 t1 h => check_ok_of_valid tr t0 t1 h, ?_, ?_⟩
  · intro tr clock ps h
    induction ps with
    | nil => rfl
    | cons p ps ih =>
      obtain ⟨o, ho⟩ :=
        check_ok_of_valid tr (clock p).1 (clock p).2 (h p (by simp))
      unfold dispatchOutcomes
      rw [List.filterMap_cons]
      simp only [ho, List.length_cons]
      have := ih fun q hq => h q (by simp [hq])
      unfold dispatchOutcomes at this
      rw [this]
  · intro method lines tr clock hm
    refine ⟨survivingSet (dispatchOutcomes tr clock (validCandidates
      (lines.map fun l => ⟨pyLower method, pyStrip l⟩))), ?_⟩
    unfold checkProxies
    rw [buildProxies_of_methodOK hm]

lemma runRequest_inv {p : Proxy} {transport : Proxy → Except PyErr Response}
    {t0 t1 : ℚ} {o : ProbeOutcome}
    (hr : runRequest p transport t0 t1 = .ok o) :
    (o.success = true → o.failureReason = none) ∧
    (o.success = false → o.failureReason.isSome = true ∧ o.timeTaken = 0) := by
  unfold runRequest at hr
  cases htr : transport p with
  | ok resp =>
    rw [htr] at hr
    have ho : o = ⟨true, t1 - t0, none⟩ := (Except.ok.inj hr).symm
    subst ho
    exact ⟨fun _ => rfl, fun hfalse => absurd hfalse (by simp)⟩
  | error e =>
    rw [htr] at hr
    have ho : o = ⟨false, 0, some e⟩ := (Except.ok.inj hr).symm
    subst ho
    exact ⟨fun htrue => absurd htrue (by simp), fun _ => ⟨rfl, rfl⟩⟩

/-- C10: every outcome `check` produces satisfies the success/failure
invariant: a successful probe carries no failure reason, a failed probe
carries one and reports elapsed time exactly 0. -/
theorem probe_outcome_invariant :
    ∀ (p : Proxy) (transport : Proxy → Except PyErr Response) (t0 t1 : ℚ)
      (o : ProbeOutcome),
      check p transport t0 t1 = .ok o →
      (o.success = true → o.failureReason = none) ∧
      (o.success = false → o.failureReason.isSome = true ∧ o.timeTaken = 0) := by
  intro p transport t0 t1 o h
  unfold check at h
  split at h
  · unfold checkWithPort at h
    split at h
    · split at h
      · cases h
      · exact runRequest_inv h
    · exact runRequest_inv h
  · cases h

theorem probe_outcome_invariant_witness :
    (some PyErr.timeout).isSome = true ∧ (0 : ℚ) = 0 :=
  (probe_outcome_invariant ⟨"http", "1.2.3.4:80"⟩ (fun _ => .error .timeout)
    0 1 ⟨false, 0, some .timeout⟩ (by rfl)).2 rfl

/-- C9 counterexample: with random-user-agent mode disabled, the agent a
probe is invoked with still varies with the dispatch-time RNG draw (line 80
draws `random.choice(user_agents)` in both branches), so no single
configured fixed userAgent is used. -/
theorem nonrandom_mode_agent_varies_cex :
    usedAgent ["AgentA", "AgentB"] false 0 0 = "AgentA" ∧
    usedAgent ["AgentA", "AgentB"] false 1 0 = "AgentB" ∧
    usedAgent ["AgentA", "AgentB"] false 0 0 ≠
      usedAgent ["AgentA", "AgentB"] false 1 0 :=
  ⟨by decide, by decide, by decide⟩

/-- C9 amended: with random mode disabled each probe uses the pool element
selected by the dispatch-time RNG draw (one independent draw per candidate);
with random mode enabled it uses a fresh in-thread draw; in either case the
agent comes from the pool whenever the pool is non-empty. -/
theorem user_agent_selection :
    ∀ (pool : List String) (r1 r2 : Nat),
      usedAgent pool false r1 r2 = randomChoice pool r1 ∧
      usedAgent pool true r1 r2 = randomChoice pool r2 ∧
      (pool ≠ [] → usedAgent pool false r1 r2 ∈ pool) := by
  intro pool r1 r2
  refine ⟨rfl, rfl, fun hne => ?_⟩
  have hlen : 0 < pool.length := List.length_pos.mpr hne
  have hlt : r1 % pool.length < pool.length := Nat.mod_lt _ hlen
  show randomChoice pool r1 ∈ pool
  unfold randomChoice
  rw [List.getD_eq_getElem pool "" hlt]
  exact List.getElem_mem hlt

/-- C6 counterexample: with the `http` selection, the SpysMe adapter's fetch
succeeds with a non-empty result while a sibling adapter raises, and the
aggregate `scrape` raises instead of collecting the partial result —
`asyncio.gather` without `return_exceptions` propagates the exception. -/
theorem scrape_partial_results_lost_cex :
    (fun c : ScraperCfg =>
        if c.name = "SpysMe" then Except.ok (ε := PyErr) ["1.1.1.1:80"]
        else Except.error PyErr.timeout) ⟨"SpysMe", "http"⟩
      = .ok ["1.1.1.1:80"] ∧
    (⟨"SpysMe", "http"⟩ : ScraperCfg) ∈
      (scrapeModel "http" fun c =>
        if c.name = "SpysMe" then .ok ["1.1.1.1:80"]
        else .error .timeout).2 ∧
    (scrapeModel "http" fun c =>
        if c.name = "SpysMe" then .ok ["1.1.1.1:80"]
        else .error .timeout).1 = .error .timeout :=
  ⟨by rfl, by decide, by rfl⟩

/-- C6 amended: one failing adapter aborts the whole aggregate scrape — the
run returns that adapter's exception and the successful siblings' results
are discarded; the collected list exists only when every selected adapter
succeeded. -/
theorem scrape_gather_error_propagation :
    ∀ (method : String) (fetch : ScraperCfg → Except PyErr (List String)),
      ((∃ c ∈ (scrapeModel method fetch).2, ∃ e, fetch c = .error e) →
        ∃ e, (scrapeModel method fetch).1 = .error e) ∧
      ((∀ c ∈ selectScrapers method, ∃ rs, fetch c = .ok rs) →
        ∃ out, (scrapeModel method fetch).1 = .ok out ∨
          (scrapeModel method fetch).1 = .error .valueError ∧ out = []) := by
  intro method fetch
  constructor
  · intro ⟨c, hc, e, he⟩
    rw [scrapeModel_fetched] at hc
    by_cases hsel : (selectScrapers method).isEmpty = true
    · rw [if_pos hsel] at hc
      cases hc
    · rw [if_neg hsel] at hc
      simp only [Bool.not_eq_true] at hsel
      obtain ⟨e', he'⟩ := gatherResults_error
        ⟨fetch c, List.mem_map_of_mem fetch hc, e, he⟩
      refine ⟨e', ?_⟩
      unfold scrapeModel
      rw [if_neg (by simp [hsel]), he']
  · intro hall
    by_cases hsel : (selectScrapers method).isEmpty = true
    · refine ⟨[], Or.inr ⟨?_, rfl⟩⟩
      unfold scrapeModel
      rw [if_pos hsel]
    · obtain ⟨rs, hrs⟩ := gatherResults_ok (l := (selectScrapers method).map fetch)
        (by
          intro x hx
          obtain ⟨c, hc, rfl⟩ := List.mem_map.mp hx
          exact hall c hc)
      refine ⟨rs.flatten, Or.inl ?_⟩
      unfold scrapeModel
      rw [if_neg hsel, hrs]

/-- C7: an unsupported protocol is an immediate configuration error before
any network activity: the checker's candidate constructor raises
`NotImplementedError` for any method whose lower-casing is outside
{http, https, socks4, socks5}, and the scraper raises `ValueError` with no
adapter fetched for any method matching no adapter. -/
theorem unsupported_protocol_fails_fast :
    ∀ m : String,
      (pyLower m ∉ ["http", "https", "socks4", "socks5"] →
        ∀ proxy, mkProxy m proxy = .error .notImplementedError) ∧
      (m ∉ ["http", "https", "socks", "socks4", "socks5"] →
        ∀ fetch, scrapeModel m fetch = (.error .valueError, [])) := by
  intro m
  constructor
  · intro h proxy
    have hm : methodOK m = false := by
      simp only [List.mem_cons, List.mem_singleton, not_or] at h
      simp [methodOK, h.1, h.2.1, h.2.2.1, h.2.2.2.1]
    simp [mkProxy, hm]
  · intro h fetch
    have hsel := selectScrapers_empty h
    unfold scrapeModel
    rw [hsel]
    rfl

theorem unsupported_protocol_fails_fast_witness :
    mkProxy "ftp" "1.2.3.4:80" = .error .notImplementedError ∧
    scrapeModel "ftp" (fun _ => .ok []) = (.error .valueError, []) :=
  ⟨(unsupported_protocol_fails_fast "ftp").1 (by decide) "1.2.3.4:80",
   (unsupported_protocol_fails_fast "ftp").2 (by decide) (fun _ => .ok [])⟩

lemma specExactMatch_iff {s : String} :
    specExactMatch s = true ↔ consumeAddr s.data = some [] := by
  cases hc : consumeAddr s.data with
  | none => simp [specExactMatch, hc]
  | some r => simp [specExactMatch, hc]

lemma is_valid_intro {s : String} {r : List Char}
    (hc : consumeAddr s.data = some r) (hr : r = [] ∨ r = ['\n']) :
    is_valid s = true := by
  rcases hr with rfl | rfl <;> simp [is_valid, hc]

lemma headND_nil : HeadND [] := trivial

lemma headND_newline : HeadND ['\n'] := rfl

/-- C5 counterexample: Python's `$` also matches just before a trailing
newline, so `is_valid` accepts `"1.2.3.4:80\n"` although that string has a
character after the port digits. -/
theorem address_validator_trailing_newline_cex :
    is_valid "1.2.3.4:80\n" = true ∧
      specExactMatch "1.2.3.4:80\n" = false := by decide

/-- C5 amended: `is_valid` accepts exactly the strings made of four
dot-separated 1-3 digit groups, a colon and 1-5 digits with nothing before
or after — except that a single trailing newline is additionally accepted
(Python `$` semantics); the spec's four examples behave as stated. -/
theorem address_validator_pattern :
    (∀ s : String, is_valid s = true ↔
        (specExactMatch s = true ∨
          ∃ core : String, s = core ++ "\n" ∧ specExactMatch core = true)) ∧
    is_valid "1.2.3.4:80" = true ∧ is_valid "999.999.999.999:99999" = true ∧
    is_valid "1.2.3:80" = false ∧ is_valid "1.2.3.4" = false := by
  refine ⟨fun s => ⟨?_, ?_⟩, by decide, by decide, by decide, by decide⟩
  · intro h
    obtain ⟨r, hc, hr⟩ := is_valid_elim h
    rcases hr with rfl | rfl
    · exact Or.inl (specExactMatch_iff.mpr hc)
    · right
      obtain ⟨A, dp, hcs, hA, hdpne, hdp, hext⟩ := consumeAddr_split hc
      refine ⟨String.mk (A ++ ':' :: dp), ?_, ?_⟩
      · apply String.ext
        rw [String.data_append, hcs]
        show A ++ ':' :: (dp ++ ['\n']) = (A ++ ':' :: dp) ++ "\n".data
        simp [show "\n".data = ['\n'] from rfl]
      · apply specExactMatch_iff.mpr
        have h0 := hext [] headND_nil
        simpa using h0
  · intro h
    rcases h with h | ⟨core, rfl, hcore⟩
    · exact is_valid_intro (specExactMatch_iff.mp h) (Or.inl rfl)
    · have hc := specExactMatch_iff.mp hcore
      obtain ⟨A, dp, hcs, hA, hdpne, hdp, hext⟩ := consumeAddr_split hc
      refine is_valid_intro (r := ['\n']) ?_ (Or.inr rfl)
      rw [String.data_append, hcs,
        show "\n".data = ['\n'] from rfl]
      have := hext ['\n'] headND_newline
      simpa using this

/-- C1: for every validation run, the surviving set returned (and written
to the output file) contains exactly the candidates whose probe reported
success: it never has more entries than the input lines, every member is
accepted by the validator and probe-successful, and under the mocked
transport where A succeeds, B is connection-refused and C times out, it is
exactly {A}. -/
theorem validation_survivors_exact :
    (∀ (method : String) (lines : List String)
        (transport : Proxy → Except PyErr Response) (clock : Proxy → ℚ × ℚ)
        (out : List String),
        checkProxies method lines transport clock = .ok out →
          out.length ≤ lines.length ∧
          ∀ s, s ∈ out ↔ ∃ l ∈ lines, pyStrip l = s ∧ is_valid s = true ∧
              probeSuccess transport clock ⟨pyLower method, s⟩ = true) ∧
    checkProxies "http" ["1.1.1.1:80", "2.2.2.2:80", "3.3.3.3:80"]
        mockTransport mockClock = .ok ["1.1.1.1:80"] := by
  refine ⟨?_, by rfl⟩
  intro method lines transport clock out h
  rw [checkProxies_ok h]
  constructor
  · rw [List.length_map]
    exact le_trans (List.length_filter_le _ _)
      (le_trans (List.length_filter_le _ _) (le_of_eq (List.length_map _ _)))
  · intro s
    simp only [List.mem_map, List.mem_filter]
    constructor
    · rintro ⟨p, ⟨⟨⟨l, hl, rfl⟩, hv⟩, hq⟩, rfl⟩
      exact ⟨l, hl, rfl, hv, hq⟩
    · rintro ⟨l, hl, hstrip, hval, hsucc⟩
      refine ⟨⟨pyLower method, pyStrip l⟩, ⟨⟨⟨l, hl, rfl⟩, ?_⟩, ?_⟩, hstrip⟩
      · show is_valid (pyStrip l) = true
        rw [hstrip]
        exact hval
      · show probeSuccess transport clock ⟨pyLower method, pyStrip l⟩ = true
        rw [hstrip]
        exact hsucc

/-- C8: given a deterministic probe transport and clock, the surviving set
of `check_proxies` is invariant (as a multiset) under any permutation of the
candidate dispatch order, and a second run on the same request returns an
identical surviving set. -/
theorem validation_permutation_invariant :
    ∀ (method : String) (l1 l2 : List String)
      (transport : Proxy → Except PyErr Response) (clock : Proxy → ℚ × ℚ)
      (s1 s2 : List String),
      l1.Perm l2 →
      checkProxies method l1 transport clock = .ok s1 →
      checkProxies method l2 transport clock = .ok s2 →
      s1.Perm s2 ∧
      ∀ s1', checkProxies method l1 transport clock = .ok s1' → s1' = s1 := by
  intro method l1 l2 transport clock s1 s2 hperm h1 h2
  constructor
  · rw [checkProxies_ok h1, checkProxies_ok h2]
    exact (((hperm.map _).filter _).filter _).map _
  · intro s1' h1'
    exact Except.ok.inj (h1'.symm.trans h1)

theorem validation_permutation_invariant_witness :
    (["1.1.1.1:80"] : List String).Perm ["1.1.1.1:80"] ∧
    ∀ s1', checkProxies "http" ["1.1.1.1:80", "2.2.2.2:80"] mockTransport
        mockClock = .ok s1' → s1' = ["1.1.1.1:80"] :=
  validation_permutation_invariant "http" ["1.1.1.1:80", "2.2.2.2:80"]
    ["2.2.2.2:80", "1.1.1.1:80"] mockTransport mockClock
    ["1.1.1.1:80"] ["1.1.1.1:80"] (by decide) (by rfl) (by rfl)

end ProxyTools
